import Mathlib

/-!
Shallow embedding of the markedly UI templating engine (Rust), covering:
the value model (`src/markedly/src/template/value.rs`), the style-cascade
attribute resolver (`src/markedly/src/template/attributes.rs`), the markup
parser (`src/markedly/src/template/parse.rs`, `template.rs`, `style.rs`),
the component tree (`src/markedly/src/ui.rs`), the render-cache driver
(`src/markedly/src/render/mod.rs`), the layout engine
(`src/markedly/src/component.rs`) and the input router
(`src/markedly/src/input/mod.rs`).

Rust `f32` values are embedded as `ℚ`; machine floats only ever hold the
small integral literals exercised here, on which `f32` arithmetic is exact.
The Lua script evaluator is opaque in the source (an external crate) and is
embedded as a record of evaluation functions.
-/

namespace Markedly

/-- Errors of the engine (`src/markedly/src/error.rs`): script evaluation
errors, value shape/range errors, attribute errors wrapping an inner error
with the owning component's class and source line, and parse errors are
kept as separate structured constructors. -/
inductive Error where
  | script (msg : String)
  | value (msg : String)
  | attributeError (component : String) (line : Nat) (field : String) (inner : Error)
deriving DecidableEq, Repr

/-- The script runtime (`src/markedly/src/scripting/runtime.rs`): an opaque
evaluator capability. Each evaluation function takes a source string and
returns a typed result or fails. -/
structure ScriptRuntime where
  evalBool : String → Except Error Bool
  evalInteger : String → Except Error Int
  evalFloat : String → Except Error ℚ
  evalString : String → Except Error String

/-- A template value (`src/markedly/src/template/value.rs`, `TemplateValue`). -/
inductive TemplateValue where
  | string (s : String)
  | integer (i : Int)
  | float (f : ℚ)
  | percentage (p : Int)
  | tuple (vs : List TemplateValue)
  | default
  | scriptValue (src : String)
  | scriptStatement (src : String)

/-- A resolved coordinate (`Coordinate` in `value.rs`): exact, or relative
to the parent extent. -/
inductive Coordinate where
  | exact (v : ℚ)
  | relativeToParent (v : ℚ)
deriving DecidableEq, Repr

/-- The `as_float` coercion of `TemplateValue` (`value.rs`). -/
def TemplateValue.as_float (v : TemplateValue) (rt : ScriptRuntime) : Except Error ℚ :=
  match v with
  | .float f => .ok f
  | .scriptValue s => rt.evalFloat s
  | _ => .error (.value "Value is not a float")

/-- The `as_coordinate` coercion of `TemplateValue` (`value.rs`): floats map
to exact coordinates, percentages to parent-relative factors `p / 100`,
script values are evaluated to floats. -/
def TemplateValue.as_coordinate (v : TemplateValue) (rt : ScriptRuntime) :
    Except Error Coordinate :=
  match v with
  | .float f => .ok (.exact f)
  | .percentage p => .ok (.relativeToParent ((p : ℚ) / 100))
  | .scriptValue s => (rt.evalFloat s).map .exact
  | _ => .error (.value "Value is not a float or percentage")

/-- An attribute entry of a component template
(`src/markedly/src/template/component.rs`, `TemplateAttribute`). -/
structure TemplateAttribute where
  key : String
  value : TemplateValue
  script_conditional : Option String

/-- The conditional check of a template attribute
(`TemplateAttribute::check_conditional` in `component.rs`): evaluate the
conditional if there is one, otherwise the attribute is unconditionally
active. -/
def TemplateAttribute.check_conditional (a : TemplateAttribute) (rt : ScriptRuntime) :
    Except Error Bool :=
  match a.script_conditional with
  | some script => rt.evalBool script
  | none => .ok true

/-- A parsed component template
(`src/markedly/src/template/component.rs`, `ComponentTemplate`). The Rust
field `class` is a keyword in Lean and is embedded as `cls`. -/
inductive ComponentTemplate where
  | mk (cls : String) (style_class : Option String)
      (attributes : List TemplateAttribute)
      (children : List ComponentTemplate) (line : Nat)

def ComponentTemplate.cls : ComponentTemplate → String
  | .mk c _ _ _ _ => c

def ComponentTemplate.style_class : ComponentTemplate → Option String
  | .mk _ sc _ _ _ => sc

def ComponentTemplate.attributes : ComponentTemplate → List TemplateAttribute
  | .mk _ _ attrs _ _ => attrs

def ComponentTemplate.children : ComponentTemplate → List ComponentTemplate
  | .mk _ _ _ cs _ => cs

def ComponentTemplate.line : ComponentTemplate → Nat
  | .mk _ _ _ _ l => l

/-- A style sheet (`src/markedly/src/template/style.rs`, `Style`): an
ordered list of top-level rules, each shaped like a component template. -/
structure Style where
  components : List ComponentTemplate

/-- Resolved attributes of one component
(`src/markedly/src/template/attributes.rs`, `Attributes`): a key-to-value
mapping (the Rust `HashMap` is embedded extensionally as a lookup function)
tagged with the owning component's class and source line. -/
structure Attributes where
  attributes : String → Option TemplateValue
  component_class : String
  component_line : Nat

/-- Overwriting insertion into the extensional map, the embedding of
`HashMap::insert`. -/
def mapInsert (m : String → Option TemplateValue) (k : String) (v : TemplateValue) :
    String → Option TemplateValue :=
  fun k' => if k' = k then some v else m k'

/-- One filtering/insert pass over an attribute list: the inner loop of
`Attributes::resolve` (`attributes.rs` lines 27-31 and 36-40). Each
attribute whose conditional check succeeds with `true` is inserted,
overwriting by key; a failing conditional evaluation aborts (Rust's `?`). -/
def insertAttributes (rt : ScriptRuntime) (m : String → Option TemplateValue) :
    List TemplateAttribute → Except Error (String → Option TemplateValue)
  | [] => .ok m
  | a :: rest =>
    match a.check_conditional rt with
    | .error e => .error e
    | .ok c => insertAttributes rt (if c then mapInsert m a.key a.value else m) rest

/-- The style-rule loop of `Attributes::resolve` (`attributes.rs` lines
25-33): every rule whose class equals the resolving component's class
contributes its conditional-true attributes. -/
def styleInsertAttributes (rt : ScriptRuntime) (cls : String)
    (m : String → Option TemplateValue) :
    List ComponentTemplate → Except Error (String → Option TemplateValue)
  | [] => .ok m
  | c :: rest =>
    if c.cls = cls then
      match insertAttributes rt m c.attributes with
      | .error e => .error e
      | .ok m' => styleInsertAttributes rt cls m' rest
    else styleInsertAttributes rt cls m rest

/-- The attribute resolver (`Attributes::resolve` in `attributes.rs`):
start empty, insert the conditional-true attributes of every style rule
whose class equals the template's class, then insert the template's own
conditional-true attributes, in declaration order. -/
def Attributes.resolve (template : ComponentTemplate) (style : Style)
    (rt : ScriptRuntime) : Except Error Attributes :=
  match styleInsertAttributes rt template.cls (fun _ => none) style.components with
  | .error e => .error e
  | .ok m =>
    match insertAttributes rt m template.attributes with
    | .error e => .error e
    | .ok m' => .ok ⟨m', template.cls, template.line⟩

/-- The accessor with a caller-provided default (`Attributes::attribute` in
`attributes.rs`): absent keys yield the default; a present value is passed
to the caller's mapping, whose error is wrapped with class/line/field. -/
def Attributes.attribute {O : Type} (a : Attributes) (key : String)
    (map : TemplateValue → Except Error O) (dflt : O) : Except Error O :=
  let r : Except Error O :=
    match a.attributes key with
    | some v => map v
    | none => .ok dflt
  r.mapError (fun e => .attributeError a.component_class a.component_line key e)

/-- The optional accessor (`Attributes::attribute_optional` in
`attributes.rs`): absent keys and the literal `Default` value yield `none`;
any other value is passed to the caller's mapping. -/
def Attributes.attribute_optional {O : Type} (a : Attributes) (key : String)
    (map : TemplateValue → Except Error O) : Except Error (Option O) :=
  let r : Except Error (Option O) :=
    match a.attributes key with
    | some .default => .ok none
    | some v => (map v).map some
    | none => .ok none
  r.mapError (fun e => .attributeError a.component_class a.component_line key e)

/-! ### Markup parser (`src/markedly/src/template/parse.rs`) -/

/-- Parse errors. The Rust code returns `String` messages; the structured
constructors here carry exactly the data interpolated into those messages
(in particular the source line for the two indentation errors). -/
inductive ParseErr where
  | badIndentation (line : Nat)
  | excessiveIndentation (line : Nat)
  | firstComponentIndentation
  | noComponent
  | multipleRoots
deriving DecidableEq, Repr

/-- One lexed component line: its 1-based source line number, its leading
indentation characters, and the component identifier text. -/
structure LexLine where
  num : Nat
  indent : List Char
  name : String
deriving DecidableEq, Repr

def splitLinesAux : List Char → List Char → List (List Char)
  | [], acc => [acc.reverse]
  | c :: rest, acc =>
    if c = '\n' then acc.reverse :: splitLinesAux rest []
    else splitLinesAux rest (c :: acc)

/-- Splits text into newline-separated lines. -/
def splitLines (cs : List Char) : List (List Char) :=
  splitLinesAux cs []

/-- Modelled from the spec: the pest grammar file `language.pest` is absent
from `src`, so the lexing layer in front of `parse_document` is taken from
§6 of the spec: the input is newline-separated lines, each either blank or
a component declaration consisting of indentation (spaces and tabs)
followed by an identifier. Attribute blocks and style-class suffixes are
not needed by the claims settled against this lexer. Line numbers are
1-based, as produced by pest's `line_col`. -/
def lexLines (text : String) : List LexLine :=
  (splitLines text.data).enum.filterMap fun p =>
    let indent := p.2.takeWhile fun c => c == ' ' || c == '\t'
    let rest := p.2.dropWhile fun c => c == ' ' || c == '\t'
    if rest.isEmpty then none
    else some ⟨p.1 + 1, indent, String.mk rest⟩

/-- The spacing count of `parse_indentation` (`parse.rs` lines 113-120):
spaces count 1, tabs count 4. -/
def lineSpacing (l : LexLine) : Nat :=
  l.indent.foldl (fun acc c => if c = '\t' then acc + 4 else acc + 1) 0

/-- The indentation measure of `parse_indentation` (`parse.rs` lines
111-129): a spacing total that is not divisible by 4 is a parse error
naming the source line; otherwise the indentation level is the total
divided by 4. -/
def parse_indentation (l : LexLine) : Except ParseErr Nat :=
  if lineSpacing l % 4 ≠ 0 then .error (.badIndentation l.num)
  else .ok (lineSpacing l / 4)

/-- The component builder of `parse_component` (`parse.rs` lines 84-109)
restricted to identifier-only lines (see `lexLines`): the class is the
identifier, the source line is recorded, attributes and children start
empty. -/
def parse_component (l : LexLine) : Except ParseErr (ComponentTemplate × Nat) :=
  match parse_indentation l with
  | .error e => .error e
  | .ok indentation => .ok (.mk l.name none [] [] l.num, indentation)

/-- Appends a child to a template's children, as `parent.children.push(sibling)`. -/
def ComponentTemplate.pushChild : ComponentTemplate → ComponentTemplate → ComponentTemplate
  | .mk c sc attrs cs l, child => .mk c sc attrs (cs ++ [child]) l

/-- The sibling-completion step of `finish_sibling` (`parse.rs` lines
66-82). The parent stack is a list whose head is the top of the stack: pop
the completed sibling and attach it to its parent on the stack, or to the
root result list when the stack holds no parent. -/
def finish_sibling :
    List ComponentTemplate × List ComponentTemplate →
    List ComponentTemplate × List ComponentTemplate
  | ([], components) => ([], components)
  | (sibling :: rest, components) =>
    match rest with
    | parent :: rest' => (parent.pushChild sibling :: rest', components)
    | [] => ([], components ++ [sibling])

/-- Iterated `finish_sibling`, the unroll loop of `parse_document`. -/
def finishN : Nat → List ComponentTemplate × List ComponentTemplate →
    List ComponentTemplate × List ComponentTemplate
  | 0, st => st
  | n + 1, st => finishN n (finish_sibling st)

/-- The main loop of `parse_document` (`parse.rs` lines 16-48), processing
component lines in document order with the open-ancestor stack, the result
list and the previous component's indentation level. -/
def parse_document_loop :
    List LexLine → List ComponentTemplate → List ComponentTemplate → Nat →
    Except ParseErr (List ComponentTemplate × List ComponentTemplate)
  | [], parent_stack, components, _ => .ok (parent_stack, components)
  | l :: rest, parent_stack, components, last_indentation =>
    match parse_component l with
    | .error e => .error e
    | .ok ci =>
      if components.isEmpty ∧ parent_stack.isEmpty ∧ ci.2 ≠ 0 then
        .error .firstComponentIndentation
      else
        let st :=
          if ci.2 = last_indentation then finish_sibling (parent_stack, components)
          else (parent_stack, components)
        let st :=
          if ci.2 < last_indentation then finishN (last_indentation - ci.2 + 1) st
          else st
        if ci.2 > last_indentation ∧ ci.2 - last_indentation > 1 then
          .error (.excessiveIndentation l.num)
        else
          parse_document_loop rest (ci.1 :: st.1) st.2 ci.2

/-- The final unroll of `parse_document` (`parse.rs` lines 50-61): walk the
remaining stack from the top, nesting each completed component into the one
below it, yielding one final nested chain. -/
def unroll_stack : List ComponentTemplate → Option ComponentTemplate → Option ComponentTemplate
  | [], last => last
  | c :: rest, last =>
    match last with
    | some l => unroll_stack rest (some (c.pushChild l))
    | none => unroll_stack rest (some c)

/-- The full `parse_document` (`parse.rs` lines 9-64). -/
def parse_document (lines : List LexLine) : Except ParseErr (List ComponentTemplate) :=
  match parse_document_loop lines [] [] 0 with
  | .error e => .error e
  | .ok st =>
    match unroll_stack st.1 none with
    | some c => .ok (st.2 ++ [c])
    | none => .ok st.2

/-- A parsed template (`src/markedly/src/template/template.rs`, `Template`):
exactly one root component. -/
structure Template where
  root : ComponentTemplate

/-- The parse entry point `Template::from_str` (`template.rs` lines 24-42):
parse the document, then require exactly one root component. -/
def Template.from_str (text : String) : Except ParseErr Template :=
  match parse_document (lexLines text) with
  | .error e => .error e
  | .ok [] => .error .noComponent
  | .ok [c] => .ok ⟨c⟩
  | .ok (_ :: _ :: _) => .error .multipleRoots

/-- The parse entry point `Style::from_str` (`style.rs` lines 23-35): parse
the document and keep every top-level component as a rule. -/
def Style.from_str (text : String) : Except ParseErr Style :=
  match parse_document (lexLines text) with
  | .error e => .error e
  | .ok document => .ok ⟨document⟩

/-- The integer value of a digit string, as Rust's `str::parse::<i32>`
computes it on the digits of a percentage literal. -/
def digitsVal (digits : List Char) : Int :=
  digits.foldl (fun n c => n * 10 + ((c.toNat : Int) - 48)) 0

/-- Modelled from the spec: the pest grammar file `language.pest` is absent
from `src`; per §6 a percentage value literal is an integer `N` followed by
a percent sign, and `parse_value` (`parse.rs` lines 176-177) parses the
digits in front of the percent sign into the `Percentage` variant. -/
def parse_percentage_literal (digits : List Char) : TemplateValue :=
  .percentage (digitsVal digits)

/-! ### Component tree (`src/markedly/src/ui.rs`) -/

/-- A live component node as far as the tree-structure claims need it
(`src/markedly/src/component.rs`, `Component`): its style class, its
ordered child IDs, and its dirty flag. `Component::from_template` resolves
attributes and starts the flag at `true`; `Component::update_attributes`
re-resolves attributes and sets the flag to `true`, which is the observable
this embedding records for an update pass. -/
structure UiComponent where
  style_class : Option String
  children : List Nat
  needs_render_update : Bool
deriving DecidableEq, Repr

/-- Lookup in the flat ID-indexed store (`Ui::get`). -/
def storeGet (s : List (Nat × UiComponent)) (k : Nat) : Option UiComponent :=
  (s.find? (fun p => p.1 == k)).map (fun p => p.2)

/-- Replacement of an existing entry in the flat store (`Ui::get_mut` plus
mutation). -/
def storeSet (s : List (Nat × UiComponent)) (k : Nat) (c : UiComponent) :
    List (Nat × UiComponent) :=
  s.map (fun p => if p.1 = k then (k, c) else p)

/-- Insertion into the flat store (`HashMap::insert`): overwrite an
existing key, append a new one. -/
def storeInsert (s : List (Nat × UiComponent)) (k : Nat) (c : UiComponent) :
    List (Nat × UiComponent) :=
  if (storeGet s k).isSome then storeSet s k c else s ++ [(k, c)]

/-- The UI state (`Ui` in `ui.rs`): the flat component store, the root ID,
the next unused ID, and the set of inserted-subtree root boundaries
(`tree_roots`). The hash map and hash set are embedded as association and
membership lists. -/
structure Ui where
  root_id : Nat
  components : List (Nat × UiComponent)
  next_id : Nat
  tree_roots : List Nat
deriving DecidableEq, Repr

mutual

/-- The recursive materialization `Ui::load_component` (`ui.rs` lines
129-152): take the next ID, load the children depth-first, insert the node
with its child IDs and a fresh (`true`) dirty flag. -/
def load_component (t : ComponentTemplate) (ui : Ui) : Nat × Ui :=
  match t with
  | .mk _cls sc _attrs children _line =>
    let id := ui.next_id
    let ui := { ui with next_id := ui.next_id + 1 }
    let (childIds, ui) := load_children children ui
    (id, { ui with components := storeInsert ui.components id ⟨sc, childIds, true⟩ })

def load_children (ts : List ComponentTemplate) (ui : Ui) : List Nat × Ui :=
  match ts with
  | [] => ([], ui)
  | t :: rest =>
    let (id, ui) := load_component t ui
    let (ids, ui) := load_children rest ui
    (id :: ids, ui)

end

/-- Construction of a UI from a root template (`Ui::new`, `ui.rs` lines
24-50), returning the UI and the root handle's ID. -/
def Ui.new (t : Template) : Ui × Nat :=
  let ui : Ui := ⟨0, [], 0, []⟩
  let (id, ui) := load_component t.root ui
  ({ ui with root_id := id }, id)

/-- The matching-component search of `Ui::insert_template` (`ui.rs` lines
80-87): the loop keeps overwriting its result, so the last match in
iteration order wins; the source iterates a hash map in unspecified order,
embedded here as store order. Claims are settled on stores with a single
match, where the order is immaterial. -/
def find_style_class (s : List (Nat × UiComponent)) (sc : String) : Option Nat :=
  s.foldl (fun acc p => if p.2.style_class = some sc then some p.1 else acc) none

/-- The subtree graft `Ui::insert_template` (`ui.rs` lines 73-106): find a
component with the requested style class, materialize the new subtree, and
append its root ID to the found component's children. Note that the source
never adds the new root to `tree_roots`, and neither does this embedding. -/
def Ui.insert_template (ui : Ui) (t : Template) (sc : String) :
    Except String (Ui × Nat) :=
  match find_style_class ui.components sc with
  | none => .error "Unable to find component with style class"
  | some parent_id =>
    let (id, ui) := load_component t.root ui
    match storeGet ui.components parent_id with
    | some parent =>
      .ok ({ ui with
              components := storeSet ui.components parent_id
                { parent with children := parent.children ++ [id] } }, id)
    | none => .error "component disappeared"

/-- The recursive update walk `Ui::update_component_recursive` (`ui.rs`
lines 154-173): recurse into every child that is not a `tree_roots`
boundary, then re-resolve the node's attributes (observable here: its
dirty flag becomes `true`). The Rust recursion is over the store's tree
shape; the embedding bounds the depth with explicit fuel, and callers pass
more fuel than any acyclic store can consume. -/
def update_component_recursive (fuel : Nat) (components : List (Nat × UiComponent))
    (key : Nat) (tree_roots : List Nat) : List (Nat × UiComponent) :=
  match fuel with
  | 0 => components
  | fuel + 1 =>
    let childIds := ((storeGet components key).map (fun c => c.children)).getD []
    let components := childIds.foldl
      (fun comps child_id =>
        if child_id ∈ tree_roots then comps
        else update_component_recursive fuel comps child_id tree_roots)
      components
    match storeGet components key with
    | some c => storeSet components key { c with needs_render_update := true }
    | none => components

/-- The model update `Ui::update_model` (`ui.rs` lines 108-121) on a tree
handle's root. -/
def Ui.update_model (ui : Ui) (tree_root : Nat) : Ui :=
  { ui with
      components :=
        update_component_recursive (ui.components.length + 1)
          ui.components tree_root ui.tree_roots }

/-- The per-pass flag reset `Ui::mark_all_rendered` (`ui.rs` lines 123-127). -/
def Ui.mark_all_rendered (ui : Ui) : Ui :=
  { ui with
      components := ui.components.map
        (fun p => (p.1, { p.2 with needs_render_update := false })) }

/-! ### Render-cache driver (`src/markedly/src/render/mod.rs`) -/

/-- The component tree as the render pass sees it
(`update_component_cache` walks `ui.get(id)` through child IDs; the
embedding materializes that walk's tree). Each node carries its ID, the
renderer's answer to `create_resize_cache` for this pass (`true` when the
backing cache was just created or resized), and its `needs_render_update`
flag. -/
inductive RenderTree where
  | node (id : Nat) (cacheWasEmpty : Bool) (needsUpdate : Bool) (children : List RenderTree)

def RenderTree.id : RenderTree → Nat
  | .node i _ _ _ => i

mutual

/-- The render decision walk `update_component_cache` (`render/mod.rs`
lines 60-95): ensure the cache exists (the renderer reports whether it was
just created or resized), bring every child up to date first, then render
exactly when the cache was empty, or some child was rendered, or the node's
own flag is set. Returns the propagated "was rendered" boolean and the
IDs rendered during the walk, children before parents, in declaration
order. -/
def update_component_cache : RenderTree → Bool × List Nat
  | .node i cacheEmpty needsUpdate children =>
    if cacheEmpty || (update_children children).1 || needsUpdate then
      (true, (update_children children).2 ++ [i])
    else
      (false, (update_children children).2)

/-- The child loop of `update_component_cache` (`render/mod.rs` lines
72-75): `child_updated |= update_component_cache(...)` over the children in
order. -/
def update_children : List RenderTree → Bool × List Nat
  | [] => (false, [])
  | c :: rest =>
    ((update_component_cache c).1 || (update_children rest).1,
     (update_component_cache c).2 ++ (update_children rest).2)

end

mutual

/-- Whether some node of the tree has its `needs_render_update` flag set. -/
def hasFlag : RenderTree → Bool
  | .node _ _ needsUpdate children => needsUpdate || hasFlagList children

def hasFlagList : List RenderTree → Bool
  | [] => false
  | c :: rest => hasFlag c || hasFlagList rest

end

mutual

/-- Whether every node's cache already existed at the right size this pass
(no `create_resize_cache` call reported a created or resized cache). -/
def allCacheFull : RenderTree → Bool
  | .node _ cacheEmpty _ children => !cacheEmpty && allCacheFullList children

def allCacheFullList : List RenderTree → Bool
  | [] => true
  | c :: rest => allCacheFull c && allCacheFullList rest

end

mutual

/-- All subtrees of a tree, the tree itself included. -/
def subtreesOf : RenderTree → List RenderTree
  | .node i ce nu children => .node i ce nu children :: subtreesOfList children

def subtreesOfList : List RenderTree → List RenderTree
  | [] => []
  | c :: rest => subtreesOf c ++ subtreesOfList rest

end

/-! ### Layout engine (`src/markedly/src/component.rs`) and input router
(`src/markedly/src/input/mod.rs`) -/

/-- A two-dimensional vector/point (`nalgebra::Vector2<f32>` /
`Point2<f32>`), embedded over `ℚ`. -/
structure Vec2 where
  x : ℚ
  y : ℚ
deriving DecidableEq, Repr

/-- Resolution of one coordinate against a parent extent
(`Coordinate::to_float` in `value.rs`). -/
def Coordinate.to_float : Coordinate → ℚ → ℚ
  | .exact v, _ => v
  | .relativeToParent v, parent_container => parent_container * v

/-- A coordinate pair (`Coordinates` in `value.rs`). -/
structure Coordinates where
  x : Coordinate
  y : Coordinate
deriving DecidableEq, Repr

/-- Resolution of a coordinate pair (`Coordinates::to_vector`). -/
def Coordinates.to_vector (c : Coordinates) (parent_container : Vec2) : Vec2 :=
  ⟨c.x.to_float parent_container.x, c.y.to_float parent_container.y⟩

/-- The per-axis docking anchor (`Docking` in `component.rs`). -/
inductive Docking where
  | Start
  | Middle
  | End
deriving DecidableEq, Repr

/-- The core layout attributes every component caches
(`ComponentAttributes` in `component.rs`). -/
structure ComponentAttributes where
  position : Option Coordinates
  size : Option Coordinates
  docking : Docking × Docking
  margin : ℚ
deriving DecidableEq, Repr

/-- The size computation `ComponentAttributes::compute_size`
(`component.rs` lines 137-141): the explicit `size` attribute resolved
against the parent extent, else the parent's full extent. -/
def ComponentAttributes.compute_size (a : ComponentAttributes) (parent_size : Vec2) : Vec2 :=
  match a.size with
  | some v => v.to_vector parent_size
  | none => parent_size

/-- The automatic flow accumulator (`ComponentFlow` in `component.rs`). -/
structure ComponentFlow where
  limits : Vec2
  pointer : Vec2
  pointer_margin : ℚ
  next_line : ℚ
deriving DecidableEq, Repr

/-- A fresh flow accumulator (`ComponentFlow::new`). -/
def ComponentFlow.new (limits : Vec2) : ComponentFlow :=
  ⟨limits, ⟨0, 0⟩, 0, 0⟩

/-- The flow placement step `ComponentFlow::position` (`component.rs` lines
227-251): overlap the adjacent margins by taking their maximum, wrap to the
next line when the child would overflow the width limit, and advance the
accumulator. Returns the assigned position and the advanced accumulator. -/
def ComponentFlow.position (flow : ComponentFlow) (size : Vec2) (margin : ℚ) :
    Vec2 × ComponentFlow :=
  let max_x_margin := max flow.pointer_margin margin
  let next_x := flow.pointer.x + max_x_margin
  let position :=
    if next_x + size.x ≤ flow.limits.x then Vec2.mk next_x (flow.pointer.y + margin)
    else Vec2.mk margin (flow.next_line + margin)
  let pointer := Vec2.mk (position.x + size.x) (position.y - margin)
  (position, ⟨flow.limits, pointer, margin, max (position.y + size.y) flow.next_line⟩)

/-- The position computation `ComponentAttributes::compute_position`
(`component.rs` lines 143-174): with an explicit position, apply the
docking rule per axis (`Start` keeps the raw offset, `Middle` adds half the
leftover space, `End` adds the full leftover space) and leave the parent's
flow accumulator untouched; without one, take the next flow slot, advancing
the accumulator. -/
def ComponentAttributes.compute_position (a : ComponentAttributes)
    (parent_size : Vec2) (parent_flow : ComponentFlow) : Vec2 × ComponentFlow :=
  let size := a.compute_size parent_size
  match a.position with
  | some position =>
    let p := position.to_vector parent_size
    let x :=
      match a.docking.1 with
      | .Start => p.x
      | .Middle => p.x + (parent_size.x - size.x) / 2
      | .End => p.x + parent_size.x - size.x
    let y :=
      match a.docking.2 with
      | .Start => p.y
      | .Middle => p.y + (parent_size.y - size.y) / 2
      | .End => p.y + parent_size.y - size.y
    (⟨x, y⟩, parent_flow)
  | none => parent_flow.position size a.margin

/-- The component tree as the input router sees it: each node carries its
ID, its cached core layout attributes, its class's cursor-capture opt-in
(`ComponentClass::is_capturing_cursor`), and its children in declaration
order. -/
inductive InputTree where
  | node (id : Nat) (attrs : ComponentAttributes) (capturing : Bool)
      (children : List InputTree)

def InputTree.id : InputTree → Nat
  | .node i _ _ _ => i

mutual

/-- The hit-test walk `find_at_position` (`input/mod.rs` lines 75-114):
compute this node's absolute position (advancing the parent's flow
accumulator) and size; a point outside the bounds is no hit and the
children are not visited; inside, tentatively record this node when it
captures the cursor, then let any hit found by a later child override
earlier results. The embedding additionally returns the list of visited
node IDs, to state which nodes the walk entered, and the advanced parent
flow accumulator (the `&mut` parameter of the source). -/
def find_at_position (position : Vec2) (t : InputTree)
    (computed_parent_position : Vec2) (parent_size : Vec2)
    (parent_flow : ComponentFlow) : Option Nat × List Nat × ComponentFlow :=
  match t with
  | .node id attrs capturing children =>
    let cp := attrs.compute_position parent_size parent_flow
    let computed_position :=
      Vec2.mk (computed_parent_position.x + cp.1.x) (computed_parent_position.y + cp.1.y)
    let computed_size := attrs.compute_size parent_size
    if position.x < computed_position.x ∨ position.y < computed_position.y ∨
        position.x > computed_position.x + computed_size.x ∨
        position.y > computed_position.y + computed_size.y then
      (none, [id], cp.2)
    else
      let found_id : Option Nat := if capturing then some id else none
      let r := find_children position children computed_position computed_size
        (ComponentFlow.new computed_size) found_id
      (r.1, id :: r.2.1, cp.2)

/-- The child loop of `find_at_position` (`input/mod.rs` lines 104-111):
children are hit-tested in declaration order with the scoped flow
accumulator threaded through, and a `Some` result replaces the accumulated
hit. -/
def find_children (position : Vec2) (cs : List InputTree)
    (computed_position : Vec2) (computed_size : Vec2)
    (flow : ComponentFlow) (found_id : Option Nat) :
    Option Nat × List Nat × ComponentFlow :=
  match cs with
  | [] => (found_id, [], flow)
  | c :: rest =>
    let r := find_at_position position c computed_position computed_size flow
    let rec' := find_children position rest computed_position computed_size r.2.2
      (match r.1 with | some i => some i | none => found_id)
    (rec'.1, r.2.1 ++ rec'.2.1, rec'.2.2)

end

/-- The per-component state the cursor handler reads and writes: the dirty
flag, and the class's hover handlers embedded as their returned
"needs redraw" booleans (`hover_start_event` / `hover_end_event`). -/
structure InputComponent where
  needs_render_update : Bool
  hover_start_ret : Bool
  hover_end_ret : Bool
deriving DecidableEq, Repr

/-- The UI as the cursor handler sees it: the target size, the layout tree,
and the per-component input state store. -/
structure InputUi where
  target_size : Vec2
  root : InputTree
  comps : List (Nat × InputComponent)

/-- The hover event trace: which handler fired on which component, in
order. -/
inductive UiEvent where
  | hoverStart (id : Nat)
  | hoverEnd (id : Nat)
deriving DecidableEq, Repr

/-- Fires `hover_start_event` on a component, OR-ing the returned boolean
into its dirty flag (`input/mod.rs` lines 37-39). -/
def fireHoverStart (ui : InputUi) (n : Nat) : InputUi :=
  { ui with
      comps := ui.comps.map fun p =>
        if p.1 = n then
          (p.1, { p.2 with
                    needs_render_update := p.2.needs_render_update || p.2.hover_start_ret })
        else p }

/-- Fires `hover_end_event` on a component, OR-ing the returned boolean
into its dirty flag (`input/mod.rs` lines 46-48). -/
def fireHoverEnd (ui : InputUi) (o : Nat) : InputUi :=
  { ui with
      comps := ui.comps.map fun p =>
        if p.1 = o then
          (p.1, { p.2 with
                    needs_render_update := p.2.needs_render_update || p.2.hover_end_ret })
        else p }

/-- The input handler state (`Input` in `input/mod.rs`). -/
structure InputState where
  hovering_over : Option Nat
deriving DecidableEq, Repr

/-- The cursor movement handler `Input::handle_cursor_moved`
(`input/mod.rs` lines 26-53): hit-test the new position; when the hit is a
new component, fire `hover_start` on it; when the previously hovered
component is no longer the hit, fire `hover_end` on it; record the new
hover target. The returned event list is the firing order. -/
def InputState.handle_cursor_moved (input : InputState) (position : Vec2)
    (ui : InputUi) : InputState × InputUi × List UiEvent :=
  let new_hovering :=
    (find_at_position position ui.root ⟨0, 0⟩ ⟨0, 0⟩ (ComponentFlow.new ui.target_size)).1
  let (ui, events) :=
    match new_hovering with
    | some n =>
      if (input.hovering_over.map (fun v => v != n)).getD true then
        (fireHoverStart ui n, [UiEvent.hoverStart n])
      else (ui, [])
    | none => (ui, ([] : List UiEvent))
  let (ui, events) :=
    match input.hovering_over with
    | some o =>
      if (new_hovering.map (fun v => v != o)).getD true then
        (fireHoverEnd ui o, events ++ [UiEvent.hoverEnd o])
      else (ui, events)
    | none => (ui, events)
  (⟨new_hovering⟩, ui, events)

/-! ### Specification-side definitions and concrete scenarios used by the
theorems -/

/-- A runtime whose evaluator always fails: used where a claim asserts the
evaluator is never consulted, and as the concrete runtime of examples whose
templates carry no script conditionals. -/
def rt0 : ScriptRuntime :=
  ⟨fun _ => .error (.script "no evaluator"),
   fun _ => .error (.script "no evaluator"),
   fun _ => .error (.script "no evaluator"),
   fun _ => .error (.script "no evaluator")⟩

/-- Whether an attribute's conditional evaluates to `true` under a runtime. -/
def condTrue (rt : ScriptRuntime) (a : TemplateAttribute) : Bool :=
  match a.check_conditional rt with
  | .ok true => true
  | _ => false

/-- The resolved mapping as the claim describes it: start empty; for each
style rule whose class equals the template's class, insert (overwriting by
key) each of its conditional-true attributes; then insert the template's
own conditional-true attributes in declaration order. -/
def claimResolveMap (template : ComponentTemplate) (style : Style)
    (rt : ScriptRuntime) : String → Option TemplateValue :=
  let afterStyle := style.components.foldl
    (fun m c =>
      if c.cls = template.cls then
        (c.attributes.filter (condTrue rt)).foldl
          (fun m a => mapInsert m a.key a.value) m
      else m)
    (fun _ => none)
  (template.attributes.filter (condTrue rt)).foldl
    (fun m a => mapInsert m a.key a.value) afterStyle

/-- The value of the last attribute with a given key in a list, if any. -/
def lastVal (l : List TemplateAttribute) (k : String) : Option TemplateValue :=
  l.foldl (fun acc a => if a.key = k then some a.value else acc) none

/-- The resolved mapping of a conditional-free template and style, written
without any reference to the script runtime: all values are copied in
verbatim. -/
def pureResolveMap (template : ComponentTemplate) (style : Style) :
    String → Option TemplateValue :=
  let afterStyle := style.components.foldl
    (fun m c =>
      if c.cls = template.cls then
        c.attributes.foldl (fun m a => mapInsert m a.key a.value) m
      else m)
    (fun _ => none)
  template.attributes.foldl (fun m a => mapInsert m a.key a.value) afterStyle

/-- The spec's duplicate-key example `root { key1: 5, key1: 10 }`. -/
def dupTemplate : ComponentTemplate :=
  .mk "root" none
    [⟨"key1", .integer 5, none⟩, ⟨"key1", .integer 10, none⟩] [] 1

/-- A style whose single rule targets class `root` and also sets `key1`,
for exercising style/template precedence. -/
def dupStyle : Style :=
  ⟨[.mk "root" none [⟨"key1", .integer 1, none⟩, ⟨"color", .string "blue", none⟩] [] 1]⟩

/-- A conditional-free template carrying an unevaluated script value. -/
def scriptTemplate : ComponentTemplate :=
  .mk "root" none [⟨"on_click", .scriptValue "model.go", none⟩] [] 2

/-- A conditional-free style whose matching rule carries an unevaluated
script value. -/
def scriptStyle : Style :=
  ⟨[.mk "root" none [⟨"background", .scriptValue "model.bg", none⟩] [] 1]⟩

/-- Resolved attributes whose `margin` key carries the literal `Default`. -/
def defaultAttrs : Attributes :=
  ⟨fun k => if k = "margin" then some .default else none, "container", 3⟩

/-- The root template of the C1 scenario: a single container whose style
class is `slot`. -/
def slotTemplate : Template :=
  ⟨.mk "container" (some "slot") [] [] 1⟩

/-- The template grafted into the C1 scenario: a single button. -/
def graftTemplate : Template :=
  ⟨.mk "button" none [] [] 1⟩

/-- The ascent check of the excessive-indentation rule: whether some
component line's indentation level exceeds its predecessor's level (the
accumulator starts at `parse_document`'s initial level 0) by more than
one. -/
def excessiveAscentB : Nat → List LexLine → Bool
  | _, [] => false
  | prev, l :: rest =>
    (decide (prev + 1 < lineSpacing l / 4)) || excessiveAscentB (lineSpacing l / 4) rest

/-- Folds a list of per-child hit results in order, a later `some`
overriding the accumulator. -/
def lastSome : List (Option Nat) → Option Nat → Option Nat
  | [], acc => acc
  | r :: rest, acc => lastSome rest (match r with | some i => some i | none => acc)

/-- The per-child hit results of the child loop of `find_at_position`, with
the scoped flow accumulator threaded through in declaration order. -/
def childHitList (position : Vec2) (cs : List InputTree)
    (computed_position : Vec2) (computed_size : Vec2) (flow : ComponentFlow) :
    List (Option Nat) :=
  match cs with
  | [] => []
  | c :: rest =>
    let r := find_at_position position c computed_position computed_size flow
    r.1 :: childHitList position rest computed_position computed_size r.2.2

/-- Layout attributes with an explicit exact position and size, `Start`
docking and no margin. -/
def attrsAt (px py sx sy : ℚ) : ComponentAttributes :=
  ⟨some ⟨.exact px, .exact py⟩, some ⟨.exact sx, .exact sy⟩, (.Start, .Start), 0⟩

/-- Two overlapping cursor-capturing siblings: child 1 spans (0,0)-(7,7),
child 2 spans (5,5)-(9,9); the point (6,6) lies inside both. -/
def overlapTree : InputTree :=
  .node 0 (attrsAt 0 0 10 10) false
    [.node 1 (attrsAt 0 0 7 7) true [],
     .node 2 (attrsAt 5 5 4 4) true []]

/-- The hover scenario tree: two small capturing siblings that do not
overlap, so a cursor move from one to the other changes the hit. -/
def hoverTree : InputTree :=
  .node 0 (attrsAt 0 0 10 10) false
    [.node 1 (attrsAt 0 0 2 2) true [],
     .node 2 (attrsAt 5 5 2 2) true []]

/-- The hover scenario UI: both siblings report a needed redraw from their
hover handlers, and start clean. -/
def hoverUi : InputUi :=
  ⟨⟨10, 10⟩, hoverTree,
   [(0, ⟨false, false, false⟩), (1, ⟨false, true, true⟩), (2, ⟨false, true, true⟩)]⟩

/-- The render scenario tree: every cache already exists at the right size,
one leaf (id 1) is dirty, its sibling subtree (id 2) is clean. -/
def renderEx : RenderTree :=
  .node 0 false false [.node 1 false true [], .node 2 false false []]

/-- The absolute rectangle `find_at_position` computes for a node: the
parent's absolute position plus the node's computed relative position
(whose computation may advance the parent's flow accumulator), paired with
the node's computed size. -/
def computedRect (attrs : ComponentAttributes)
    (computed_parent_position parent_size : Vec2)
    (parent_flow : ComponentFlow) : Vec2 × Vec2 :=
  (⟨computed_parent_position.x + (attrs.compute_position parent_size parent_flow).1.x,
    computed_parent_position.y + (attrs.compute_position parent_size parent_flow).1.y⟩,
   attrs.compute_size parent_size)

/-- The bounds test of `find_at_position` (boundary inclusive): whether a
point lies outside a rectangle given as position and size. -/
def outsideRect (position : Vec2) (r : Vec2 × Vec2) : Prop :=
  position.x < r.1.x ∨ position.y < r.1.y ∨
    position.x > r.1.x + r.2.x ∨ position.y > r.1.y + r.2.y

/-!
## Theorems

Helper lemmas come first; each claim's theorem carries a doc comment naming
the claim.
-/

/-- Structural induction for `RenderTree` through its nested children
list. -/
theorem RenderTree.inductionOn (motive : RenderTree → Prop)
    (h : ∀ i ce nu cs, (∀ c ∈ cs, motive c) → motive (RenderTree.node i ce nu cs)) :
    ∀ t, motive t := by
  have H : ∀ n (t : RenderTree), sizeOf t ≤ n → motive t := by
    intro n
    induction n with
    | zero =>
      intro t ht
      cases t with
      | node i ce nu cs =>
        simp only [RenderTree.node.sizeOf_spec] at ht
        omega
    | succ n ih =>
      intro t ht
      cases t with
      | node i ce nu cs =>
        refine h i ce nu cs (fun c hc => ih c ?_)
        have h1 : sizeOf c < sizeOf cs := List.sizeOf_lt_of_mem hc
        simp only [RenderTree.node.sizeOf_spec] at ht
        omega
  exact fun t => H (sizeOf t) t le_rfl

theorem update_cache_spec : ∀ t : RenderTree, allCacheFull t = true →
    ((update_component_cache t).1 = hasFlag t ∧
     ∀ j, j ∈ (update_component_cache t).2 ↔
       ∃ s ∈ subtreesOf t, s.id = j ∧ hasFlag s = true) := by
  intro t
  induction t using RenderTree.inductionOn with
  | h i ce nu cs ih =>
    intro hfull
    -- children-level facts
    have hlist : allCacheFullList cs = true ∧ ce = false := by
      simp only [allCacheFull, Bool.and_eq_true, Bool.not_eq_eq_eq_not, Bool.not_true] at hfull
      exact ⟨hfull.2, hfull.1⟩
    obtain ⟨hcsfull, hce⟩ := hlist
    have haux : (update_children cs).1 = hasFlagList cs ∧
        ∀ j, j ∈ (update_children cs).2 ↔
          ∃ s ∈ subtreesOfList cs, s.id = j ∧ hasFlag s = true := by
      clear hfull
      induction cs with
      | nil => simp [update_children, hasFlagList, subtreesOfList]
      | cons c rest ihrest =>
        simp only [allCacheFullList, Bool.and_eq_true] at hcsfull
        have hc := ih c (by simp) hcsfull.1
        have hr := ihrest (fun c' hc' => ih c' (by simp [hc'])) hcsfull.2
        constructor
        · simp only [update_children, hc.1, hr.1, hasFlagList]
        · intro j
          simp only [update_children, List.mem_append, hc.2 j, hr.2 j, subtreesOfList]
          constructor
          · rintro (⟨s, hs, hj⟩ | ⟨s, hs, hj⟩)
            · exact ⟨s, Or.inl hs, hj⟩
            · exact ⟨s, Or.inr hs, hj⟩
          · rintro ⟨s, hs | hs, hj⟩
            · exact Or.inl ⟨s, hs, hj⟩
            · exact Or.inr ⟨s, hs, hj⟩
    constructor
    · simp only [update_component_cache, hce, haux.1, Bool.false_or, hasFlag]
      rcases h1 : hasFlagList cs <;> rcases h2 : nu <;> simp [h1, h2]
    · intro j
      by_cases hcond : (hasFlagList cs || nu) = true
      · have hupd : update_component_cache (RenderTree.node i ce nu cs) =
            (true, (update_children cs).2 ++ [i]) := by
          simp only [update_component_cache, hce, haux.1, Bool.false_or, hcond, if_true]
        rw [hupd]
        simp only [List.mem_append, haux.2 j, subtreesOf, List.mem_cons,
          List.not_mem_nil, or_false]
        constructor
        · rintro (⟨s, hs, hj⟩ | hji)
          · exact ⟨s, Or.inr hs, hj⟩
          · refine ⟨RenderTree.node i ce nu cs, Or.inl rfl, hji.symm, ?_⟩
            show (nu || hasFlagList cs) = true
            rw [Bool.or_comm]
            exact hcond
        · rintro ⟨s, rfl | hs, hj⟩
          · exact Or.inr hj.1.symm
          · exact Or.inl ⟨s, hs, hj⟩
      · have hcond' : (hasFlagList cs || nu) = false := by
          simpa using hcond
        have hupd : update_component_cache (RenderTree.node i ce nu cs) =
            (false, (update_children cs).2) := by
          simp only [update_component_cache, hce, haux.1, Bool.false_or]
          rw [hcond']
          simp
        rw [hupd]
        simp only [haux.2 j, subtreesOf, List.mem_cons]
        constructor
        · rintro ⟨s, hs, hj⟩
          exact ⟨s, Or.inr hs, hj⟩
        · rintro ⟨s, rfl | hs, hj⟩
          · exfalso
            apply hcond
            have h2 := hj.2
            show (hasFlagList cs || nu) = true
            rw [Bool.or_comm]
            exact h2
          · exact ⟨s, hs, hj⟩

/-- Claim C2: in one render pass a node is rendered iff its backing cache
was just created or resized, or at least one child was rendered, or its own
`needs_render_update` flag is set; and when no cache is created or resized,
the rendered nodes are exactly those whose subtree contains a flagged node
- for a single flagged leaf, that leaf and its ancestors up to the root,
and no node of an unrelated sibling subtree. -/
theorem render_pass_renders_exactly_dirty_paths (t : RenderTree)
    (h : allCacheFull t = true) :
    (∀ i ce nu cs, (update_component_cache (RenderTree.node i ce nu cs)).1 =
        (ce || (update_children cs).1 || nu)) ∧
    (update_component_cache t).1 = hasFlag t ∧
    (∀ j, j ∈ (update_component_cache t).2 ↔
        ∃ s ∈ subtreesOf t, s.id = j ∧ hasFlag s = true) := by
  refine ⟨?_, (update_cache_spec t h).1, (update_cache_spec t h).2⟩
  intro i ce nu cs
  rcases h1 : (ce || (update_children cs).1 || nu) <;>
    simp [update_component_cache, h1]

/-- Witness for C2 at the concrete tree `renderEx`. -/
theorem render_pass_renders_exactly_dirty_paths_witness :
    allCacheFull renderEx = true ∧
    ((∀ i ce nu cs, (update_component_cache (RenderTree.node i ce nu cs)).1 =
        (ce || (update_children cs).1 || nu)) ∧
    (update_component_cache renderEx).1 = hasFlag renderEx ∧
    (∀ j, j ∈ (update_component_cache renderEx).2 ↔
        ∃ s ∈ subtreesOf renderEx, s.id = j ∧ hasFlag s = true)) :=
  ⟨by decide, render_pass_renders_exactly_dirty_paths renderEx (by decide)⟩

/-- Claim C1: `insert_template` grafts the subtree and appends its root to
the found parent's children but records no `tree_root` boundary
(`tree_roots` stays empty), so a later `update_model` on the parent tree's
handle recurses into the grafted subtree and sets its dirty flag. -/
theorem insert_template_omits_tree_root_boundary :
    (Ui.new slotTemplate).1.insert_template graftTemplate "slot" =
      .ok (⟨0, [(0, ⟨some "slot", [1], true⟩), (1, ⟨none, [], true⟩)], 2, []⟩, 1) ∧
    ((Ui.mk 0 [(0, ⟨some "slot", [1], true⟩), (1, ⟨none, [], true⟩)] 2
        []).mark_all_rendered.update_model 0).components =
      [(0, ⟨some "slot", [1], true⟩), (1, ⟨none, [], true⟩)] :=
  ⟨rfl, by decide⟩

/-- The loop of `parse_document` fails whenever some remaining line's
spacing is not divisible by 4. -/
theorem loop_err_of_bad_spacing :
    ∀ (lines : List LexLine) (ps cs : List ComponentTemplate) (last : Nat),
      (∃ l ∈ lines, lineSpacing l % 4 ≠ 0) →
      ∃ e, parse_document_loop lines ps cs last = .error e := by
  intro lines
  induction lines with
  | nil =>
    rintro ps cs last ⟨l, hl, _⟩
    cases hl
  | cons l rest ih =>
    rintro ps cs last ⟨l', hl', hbad⟩
    by_cases hhead : lineSpacing l % 4 = 0
    · have hl'mem : l' ∈ rest := by
        rcases List.mem_cons.mp hl' with rfl | hmem
        · exact absurd hhead hbad
        · exact hmem
      have hpc : parse_component l = .ok (⟨l.name, none, [], [], l.num⟩, lineSpacing l / 4) := by
        simp [parse_component, parse_indentation, hhead]
      simp only [parse_document_loop, hpc]
      split
      · exact ⟨_, rfl⟩
      · split
        · exact ⟨_, rfl⟩
        · exact ih _ _ _ ⟨l', hl'mem, hbad⟩
    · have hpc : parse_component l = .error (.badIndentation l.num) := by
        simp [parse_component, parse_indentation, hhead]
      simp only [parse_document_loop, hpc]
      exact ⟨_, rfl⟩

/-- The loop of `parse_document` fails whenever, with all spacings
divisible by 4, some component line's indentation level climbs more than
one level above its predecessor's. -/
theorem loop_err_of_excessive_ascent :
    ∀ (lines : List LexLine) (ps cs : List ComponentTemplate) (last : Nat),
      (∀ l ∈ lines, lineSpacing l % 4 = 0) →
      excessiveAscentB last lines = true →
      ∃ e, parse_document_loop lines ps cs last = .error e := by
  intro lines
  induction lines with
  | nil =>
    intro ps cs last _ hasc
    cases hasc
  | cons l rest ih =>
    intro ps cs last hall hasc
    have hhead : lineSpacing l % 4 = 0 := hall l (by simp)
    have hpc : parse_component l = .ok (⟨l.name, none, [], [], l.num⟩, lineSpacing l / 4) := by
      simp [parse_component, parse_indentation, hhead]
    simp only [parse_document_loop, hpc]
    split
    · exact ⟨_, rfl⟩
    · split
      · exact ⟨_, rfl⟩
      · rename_i hfirst hexc
        simp only [excessiveAscentB, Bool.or_eq_true, decide_eq_true_eq] at hasc
        rcases hasc with hgt | hrest
        · exact absurd ⟨by omega, by omega⟩ hexc
        · exact ih _ _ _ (fun l' hl' => hall l' (by simp [hl'])) hrest

/-- Claim C8: parsing fails whenever a line's indentation spacing (tabs
counting 4) is not divisible by 4, or whenever a component line's
indentation level climbs more than one level above its predecessor's; the
two indentation errors carry the offending source line; the text
`"root\n  child\n"` fails at line 2 and `"root\n    child\n"` parses. -/
theorem parse_rejects_bad_indentation :
    (∀ text, (∃ l ∈ lexLines text, lineSpacing l % 4 ≠ 0) →
      ∃ e, parse_document (lexLines text) = .error e) ∧
    (∀ text, (∀ l ∈ lexLines text, lineSpacing l % 4 = 0) →
      excessiveAscentB 0 (lexLines text) = true →
      ∃ e, parse_document (lexLines text) = .error e) ∧
    Template.from_str "root\n  child\n" = .error (.badIndentation 2) ∧
    (Template.from_str "root\n    child\n").isOk = true := by
  refine ⟨?_, ?_, rfl, by decide⟩
  · intro text h
    obtain ⟨e, he⟩ := loop_err_of_bad_spacing (lexLines text) [] [] 0 h
    exact ⟨e, by simp [parse_document, he]⟩
  · intro text hall hasc
    obtain ⟨e, he⟩ := loop_err_of_excessive_ascent (lexLines text) [] [] 0 hall hasc
    exact ⟨e, by simp [parse_document, he]⟩

/-- Witness for C8 on the two failing inputs. -/
theorem parse_rejects_bad_indentation_witness :
    (∃ e, parse_document (lexLines "root\n  child\n") = .error e) ∧
    (∃ e, parse_document (lexLines "root\n        gc\n") = .error e) :=
  ⟨parse_rejects_bad_indentation.1 "root\n  child\n"
      ⟨⟨2, [' ', ' '], "child"⟩, by decide, by decide⟩,
   parse_rejects_bad_indentation.2.1 "root\n        gc\n" (by decide) (by decide)⟩

/-- Claim C9: a `Template` parse requires exactly one root component (zero
or several top-level components are an error), while a `Style` parse keeps
every top-level component as a rule; `"root\nroot2\n"` fails as a template
and yields two rules as a style. -/
theorem template_single_root_style_many :
    (∀ text document, parse_document (lexLines text) = .ok document →
      Style.from_str text = .ok ⟨document⟩) ∧
    (∀ text document, parse_document (lexLines text) = .ok document →
      ((Template.from_str text).isOk = true ↔ document.length = 1)) ∧
    Template.from_str "root\nroot2\n" = .error .multipleRoots ∧
    Style.from_str "root\nroot2\n" =
      .ok ⟨[.mk "root" none [] [] 1, .mk "root2" none [] [] 2]⟩ := by
  refine ⟨?_, ?_, rfl, rfl⟩
  · intro text doc h
    simp [Style.from_str, h]
  · intro text doc h
    simp only [Template.from_str, h]
    rcases doc with _ | ⟨c, _ | ⟨d, tl⟩⟩ <;> simp [Except.isOk, Except.toBool]

/-- Witness for C9 at the two-root input. -/
theorem template_single_root_style_many_witness :
    Style.from_str "root\nroot2\n" =
      .ok ⟨[ComponentTemplate.mk "root" none [] [] 1,
            ComponentTemplate.mk "root2" none [] [] 2]⟩ ∧
    ((Template.from_str "root\nroot2\n").isOk = true ↔
      [ComponentTemplate.mk "root" none [] [] 1,
       ComponentTemplate.mk "root2" none [] [] 2].length = 1) :=
  ⟨template_single_root_style_many.1 "root\nroot2\n" _ rfl,
   template_single_root_style_many.2.1 "root\nroot2\n" _ rfl⟩

/-- An attribute pass whose conditional checks all succeed inserts exactly
the conditional-true attributes, in order. -/
theorem insertAttributes_ok (rt : ScriptRuntime) :
    ∀ (attrs : List TemplateAttribute) (m : String → Option TemplateValue),
      (∀ a ∈ attrs, (a.check_conditional rt).isOk = true) →
      insertAttributes rt m attrs =
        .ok ((attrs.filter (condTrue rt)).foldl
          (fun m a => mapInsert m a.key a.value) m) := by
  intro attrs
  induction attrs with
  | nil => intro m _; simp [insertAttributes]
  | cons a rest ih =>
    intro m h
    have ha := h a (List.mem_cons_self a rest)
    rcases hc : a.check_conditional rt with e | b
    · rw [hc] at ha
      simp [Except.isOk, Except.toBool] at ha
    · have hrest : ∀ x ∈ rest, (x.check_conditional rt).isOk = true :=
        fun x hx => h x (List.mem_cons_of_mem _ hx)
      have hcv : condTrue rt a = b := by
        rcases b <;> simp [condTrue, hc]
      rcases b with _ | _ <;>
        simp [insertAttributes, hc, List.filter_cons, hcv, ih _ hrest]

/-- A style pass whose conditional checks all succeed contributes the
conditional-true attributes of every class-matching rule, in order. -/
theorem styleInsertAttributes_ok (rt : ScriptRuntime) (cls : String) :
    ∀ (comps : List ComponentTemplate) (m : String → Option TemplateValue),
      (∀ c ∈ comps, c.cls = cls →
        ∀ a ∈ c.attributes, (a.check_conditional rt).isOk = true) →
      styleInsertAttributes rt cls m comps =
        .ok (comps.foldl
          (fun m c =>
            if c.cls = cls then
              (c.attributes.filter (condTrue rt)).foldl
                (fun m a => mapInsert m a.key a.value) m
            else m)
          m) := by
  intro comps
  induction comps with
  | nil => intro m _; simp [styleInsertAttributes]
  | cons c rest ih =>
    intro m h
    have hrest : ∀ x ∈ rest, x.cls = cls →
        ∀ a ∈ x.attributes, (a.check_conditional rt).isOk = true :=
      fun x hx => h x (List.mem_cons_of_mem _ hx)
    by_cases hcls : c.cls = cls
    · simp only [styleInsertAttributes, if_pos hcls,
        insertAttributes_ok rt c.attributes m (h c (List.mem_cons_self c rest) hcls),
        List.foldl_cons]
      exact ih _ hrest
    · simp only [styleInsertAttributes, if_neg hcls, List.foldl_cons]
      exact ih _ hrest

/-- Lookup after an insert fold equals a right-biased scan of the list over
the previous binding. -/
theorem foldl_mapInsert_lookup :
    ∀ (l : List TemplateAttribute) (m : String → Option TemplateValue) (k : String),
      (l.foldl (fun m a => mapInsert m a.key a.value) m) k =
        l.foldl (fun acc a => if a.key = k then some a.value else acc) (m k) := by
  intro l
  induction l with
  | nil => intro m k; simp
  | cons a rest ih =>
    intro m k
    simp only [List.foldl_cons]
    rw [ih]
    by_cases h : a.key = k
    · have : mapInsert m a.key a.value k = some a.value := by
        simp [mapInsert, h]
      rw [this, if_pos h]
    · have : mapInsert m a.key a.value k = m k := by
        simp [mapInsert]
        intro hk
        exact absurd hk.symm h
      rw [this, if_neg h]

/-- A right-biased scan that produces a value from `none` produces the same
value from any starting binding. -/
theorem foldl_last_some :
    ∀ (l : List TemplateAttribute) (k : String) (v : TemplateValue)
      (init : Option TemplateValue),
      l.foldl (fun acc a => if a.key = k then some a.value else acc) none = some v →
      l.foldl (fun acc a => if a.key = k then some a.value else acc) init = some v := by
  intro l
  induction l with
  | nil =>
    intro k v init h
    exact absurd h (by simp)
  | cons a rest ih =>
    intro k v init h
    simp only [List.foldl_cons] at h ⊢
    by_cases hk : a.key = k
    · rw [if_pos hk] at h ⊢
      exact h
    · rw [if_neg hk] at h ⊢
      exact ih k v init h

/-- Claim C3: with every relevant conditional evaluating successfully,
`Attributes::resolve` returns exactly the mapping built by inserting the
conditional-true attributes of class-matching style rules and then the
template's own conditional-true attributes in declaration order; the last
occurrence of a duplicated template key wins (`key1: 5, key1: 10` resolves
to 10), and a key set by the template resolves to the template's value
whatever the style says. -/
theorem resolve_cascade_spec :
    (∀ (template : ComponentTemplate) (style : Style) (rt : ScriptRuntime),
      (∀ a ∈ template.attributes, (a.check_conditional rt).isOk = true) →
      (∀ c ∈ style.components, c.cls = template.cls →
        ∀ a ∈ c.attributes, (a.check_conditional rt).isOk = true) →
      Attributes.resolve template style rt =
        .ok ⟨claimResolveMap template style rt, template.cls, template.line⟩ ∧
      (∀ k v, lastVal (template.attributes.filter (condTrue rt)) k = some v →
        claimResolveMap template style rt k = some v)) ∧
    (∀ rt, ∃ A, Attributes.resolve dupTemplate ⟨[]⟩ rt = .ok A ∧
      A.attributes "key1" = some (.integer 10)) := by
  constructor
  · intro template style rt h1 h2
    constructor
    · have e1 := styleInsertAttributes_ok rt template.cls style.components
        (fun _ => none) h2
      have e2 := fun m => insertAttributes_ok rt template.attributes m h1
      simp only [Attributes.resolve, e1, e2]
      rfl
    · intro k v hv
      rw [claimResolveMap]
      rw [foldl_mapInsert_lookup]
      exact foldl_last_some _ k v _ hv
  · intro rt
    exact ⟨_, rfl, rfl⟩

/-- Witness for C3 at the duplicate-key template and a style that also sets
`key1`. -/
theorem resolve_cascade_spec_witness :
    Attributes.resolve dupTemplate dupStyle rt0 =
      .ok ⟨claimResolveMap dupTemplate dupStyle rt0, "root", 1⟩ ∧
    claimResolveMap dupTemplate dupStyle rt0 "key1" = some (.integer 10) :=
  ⟨((resolve_cascade_spec.1 dupTemplate dupStyle rt0 (by decide) (by decide)).1 : _),
   (resolve_cascade_spec.1 dupTemplate dupStyle rt0 (by decide) (by decide)).2
     "key1" (.integer 10) rfl⟩

/-- A conditional-free attribute list always inserts all its attributes,
verbatim. -/
theorem insertAttributes_nocond (rt : ScriptRuntime) :
    ∀ (attrs : List TemplateAttribute) (m : String → Option TemplateValue),
      (∀ a ∈ attrs, a.script_conditional = none) →
      insertAttributes rt m attrs =
        .ok (attrs.foldl (fun m a => mapInsert m a.key a.value) m) := by
  intro attrs
  induction attrs with
  | nil => intro m _; simp [insertAttributes]
  | cons a rest ih =>
    intro m h
    have ha : a.check_conditional rt = .ok true := by
      simp [TemplateAttribute.check_conditional, h a (List.mem_cons_self a rest)]
    simp only [insertAttributes, ha, if_pos, List.foldl_cons]
    exact ih _ (fun x hx => h x (List.mem_cons_of_mem _ hx))

/-- A style sheet whose class-matching rules are conditional-free always
contributes all their attributes, verbatim. -/
theorem styleInsertAttributes_nocond (rt : ScriptRuntime) (cls : String) :
    ∀ (comps : List ComponentTemplate) (m : String → Option TemplateValue),
      (∀ c ∈ comps, c.cls = cls → ∀ a ∈ c.attributes, a.script_conditional = none) →
      styleInsertAttributes rt cls m comps =
        .ok (comps.foldl
          (fun m c =>
            if c.cls = cls then
              c.attributes.foldl (fun m a => mapInsert m a.key a.value) m
            else m)
          m) := by
  intro comps
  induction comps with
  | nil => intro m _; simp [styleInsertAttributes]
  | cons c rest ih =>
    intro m h
    have hrest : ∀ x ∈ rest, x.cls = cls →
        ∀ a ∈ x.attributes, a.script_conditional = none :=
      fun x hx => h x (List.mem_cons_of_mem _ hx)
    by_cases hcls : c.cls = cls
    · simp only [styleInsertAttributes, if_pos hcls,
        insertAttributes_nocond rt c.attributes m (h c (List.mem_cons_self c rest) hcls),
        List.foldl_cons]
      exact ih _ hrest
    · simp only [styleInsertAttributes, if_neg hcls, List.foldl_cons]
      exact ih _ hrest

/-- Claim C10: when neither the template's attributes nor any attribute of
a class-matching style rule carries a script conditional, `resolve` always
succeeds, its result does not depend on the script runtime, and the values
(unevaluated script sources included) are copied verbatim into the result. -/
theorem resolve_total_without_conditionals :
    ∀ (template : ComponentTemplate) (style : Style),
      (∀ a ∈ template.attributes, a.script_conditional = none) →
      (∀ c ∈ style.components, c.cls = template.cls →
        ∀ a ∈ c.attributes, a.script_conditional = none) →
      (∀ rt, Attributes.resolve template style rt =
        .ok ⟨pureResolveMap template style, template.cls, template.line⟩) ∧
      (∀ rt rt', Attributes.resolve template style rt =
        Attributes.resolve template style rt') := by
  intro template style h1 h2
  have hok : ∀ rt, Attributes.resolve template style rt =
      .ok ⟨pureResolveMap template style, template.cls, template.line⟩ := by
    intro rt
    have e1 := styleInsertAttributes_nocond rt template.cls style.components
      (fun _ => none) h2
    have e2 := fun m => insertAttributes_nocond rt template.attributes m h1
    simp only [Attributes.resolve, e1, e2]
    rfl
  exact ⟨hok, fun rt rt' => (hok rt).trans (hok rt').symm⟩

/-- Witness for C10 at a conditional-free template and style that both
carry unevaluated script values, under the failing runtime `rt0`. -/
theorem resolve_total_without_conditionals_witness :
    (∀ rt, Attributes.resolve scriptTemplate scriptStyle rt =
      .ok ⟨pureResolveMap scriptTemplate scriptStyle, "root", 2⟩) ∧
    (∀ rt rt', Attributes.resolve scriptTemplate scriptStyle rt =
      Attributes.resolve scriptTemplate scriptStyle rt') :=
  resolve_total_without_conditionals scriptTemplate scriptStyle
    (by decide) (by decide)

/-- Counterexample to claim C4: for a resolved attribute whose value is the
literal `Default`, the accessor `Attributes::attribute` does not fall back
to the caller-provided default: with the `as_float` mapping it returns a
wrapped attribute error instead of `Ok(0)`. -/
theorem attribute_errors_on_default_counterexample :
    defaultAttrs.attribute "margin" (fun v => v.as_float rt0) 0 =
      .error (.attributeError "container" 3 "margin" (.value "Value is not a float")) ∧
    defaultAttrs.attribute "margin" (fun v => v.as_float rt0) 0 ≠ .ok 0 := by
  constructor
  · rfl
  · intro h
    rw [show defaultAttrs.attribute "margin" (fun v => v.as_float rt0) 0 =
        .error (.attributeError "container" 3 "margin" (.value "Value is not a float"))
      from rfl] at h
    cases h

/-- Claim C4 (amended): only `attribute_optional` treats the literal
`Default` as absent (yielding `Ok(none)` without invoking the mapping);
`attribute` passes `Default` to the caller's mapping, so a mapping that
rejects it (such as `as_float`) produces a wrapped attribute error rather
than the caller-provided default. -/
theorem attribute_default_handling :
    (∀ (a : Attributes) (k : String) {O : Type}
      (f : TemplateValue → Except Error O),
      a.attributes k = some .default → a.attribute_optional k f = .ok none) ∧
    (∀ (a : Attributes) (k : String) (rt : ScriptRuntime) (dflt : ℚ),
      a.attributes k = some .default →
      a.attribute k (fun v => v.as_float rt) dflt =
        .error (.attributeError a.component_class a.component_line k
          (.value "Value is not a float"))) := by
  constructor
  · intro a k O f h
    simp only [Attributes.attribute_optional, h]
    rfl
  · intro a k rt dflt h
    simp only [Attributes.attribute, h]
    rfl

/-- Witness for the amended C4 at `defaultAttrs`. -/
theorem attribute_default_handling_witness :
    defaultAttrs.attribute_optional "margin" (fun v => v.as_float rt0) = .ok none ∧
    defaultAttrs.attribute "margin" (fun v => v.as_float rt0) 1 =
      .error (.attributeError "container" 3 "margin" (.value "Value is not a float")) :=
  ⟨attribute_default_handling.1 defaultAttrs "margin" (fun v => v.as_float rt0) rfl,
   attribute_default_handling.2 defaultAttrs "margin" rt0 1 rfl⟩

/-- Counterexample to claim C6: a parsed percentage literal is not bounded
by 100, and `as_coordinate` performs no clamping: the literal `200%` parses
to `Percentage 200` whose coordinate factor is 2, outside `[0, 1]`. -/
theorem percentage_factor_exceeds_unit_interval :
    parse_percentage_literal ['2', '0', '0'] = TemplateValue.percentage 200 ∧
    (∃ q, (TemplateValue.percentage 200).as_coordinate rt0 =
      .ok (.relativeToParent q) ∧ 1 < q) := by
  refine ⟨rfl, ((200 : Int) : ℚ) / 100, rfl, by norm_num⟩

/-- Claim C6 (amended): `as_coordinate` maps `Percentage p` to
`RelativeToParent (p / 100)`; a parsed percentage literal (a digit string)
is nonnegative, so the factor is nonnegative, and it lies in `[0, 1]`
exactly when `p ≤ 100` - values above 100 yield factors above 1. -/
theorem as_coordinate_percentage_factor :
    (∀ (p : ℕ) (rt : ScriptRuntime),
      (TemplateValue.percentage (p : Int)).as_coordinate rt =
        .ok (.relativeToParent (((p : Int) : ℚ) / 100)) ∧
      0 ≤ (((p : Int) : ℚ) / 100) ∧
      ((((p : Int) : ℚ) / 100) ≤ 1 ↔ p ≤ 100)) ∧
    (∀ (digits : List Char), (∀ c ∈ digits, 48 ≤ c.toNat) →
      0 ≤ digitsVal digits) := by
  constructor
  · intro p rt
    refine ⟨rfl, by positivity, ?_⟩
    rw [div_le_one (by norm_num)]
    push_cast
    exact_mod_cast Nat.cast_le (α := ℚ)
  · intro digits h
    have general : ∀ (l : List Char) (n : Int), 0 ≤ n → (∀ c ∈ l, 48 ≤ c.toNat) →
        0 ≤ l.foldl (fun n c => n * 10 + ((c.toNat : Int) - 48)) n := by
      intro l
      induction l with
      | nil => intro n hn _; simpa using hn
      | cons c cs ih =>
        intro n hn hl
        simp only [List.foldl_cons]
        refine ih _ ?_ (fun x hx => hl x (List.mem_cons_of_mem _ hx))
        have hc := hl c (List.mem_cons_self c cs)
        have : (48 : Int) ≤ (c.toNat : Int) := by exact_mod_cast hc
        nlinarith
    exact general digits 0 le_rfl h

/-- Witness for the amended C6 at `200%` and the digit string `200`. -/
theorem as_coordinate_percentage_factor_witness :
    ((TemplateValue.percentage ((200 : ℕ) : Int)).as_coordinate rt0 =
        .ok (.relativeToParent ((((200 : ℕ) : Int) : ℚ) / 100)) ∧
      0 ≤ ((((200 : ℕ) : Int) : ℚ) / 100) ∧
      (((((200 : ℕ) : Int) : ℚ) / 100) ≤ 1 ↔ (200 : ℕ) ≤ 100)) ∧
    ((∀ c ∈ ['2', '0', '0'], 48 ≤ c.toNat) ∧ 0 ≤ digitsVal ['2', '0', '0']) :=
  ⟨as_coordinate_percentage_factor.1 200 rt0,
   by decide,
   as_coordinate_percentage_factor.2 ['2', '0', '0'] (by decide)⟩

/-- The hit accumulated by the child loop of `find_at_position` is the last
`some` among the per-child results, over the initial accumulator. -/
theorem find_children_lastSome :
    ∀ (cs : List InputTree) (position cpos csize : Vec2) (flow : ComponentFlow)
      (acc : Option Nat),
      (find_children position cs cpos csize flow acc).1 =
        lastSome (childHitList position cs cpos csize flow) acc := by
  intro cs
  induction cs with
  | nil => intro position cpos csize flow acc; simp [find_children, childHitList, lastSome]
  | cons c rest ih =>
    intro position cpos csize flow acc
    simp only [find_children, childHitList, lastSome]
    rw [ih]

/-- Claim C7: a point outside a node's computed bounds yields no hit
without visiting any child (the visit trace holds only the node itself);
a point inside yields the last `some` among the children's hits in
declaration order, falling back to the node itself when it captures the
cursor; and at the point (6,6) inside both overlapping capturing siblings
of `overlapTree`, the later sibling (id 2) wins. -/
theorem find_at_position_last_match_wins :
    (∀ (position : Vec2) (id : Nat) (attrs : ComponentAttributes) (capturing : Bool)
      (children : List InputTree) (cpp ps : Vec2) (fl : ComponentFlow),
      outsideRect position (computedRect attrs cpp ps fl) →
      find_at_position position (.node id attrs capturing children) cpp ps fl =
        (none, [id], (attrs.compute_position ps fl).2)) ∧
    (∀ (position : Vec2) (id : Nat) (attrs : ComponentAttributes) (capturing : Bool)
      (children : List InputTree) (cpp ps : Vec2) (fl : ComponentFlow),
      ¬ outsideRect position (computedRect attrs cpp ps fl) →
      (find_at_position position (.node id attrs capturing children) cpp ps fl).1 =
        lastSome
          (childHitList position children (computedRect attrs cpp ps fl).1
            (computedRect attrs cpp ps fl).2
            (ComponentFlow.new (computedRect attrs cpp ps fl).2))
          (if capturing then some id else none)) ∧
    (find_at_position ⟨6, 6⟩ overlapTree ⟨0, 0⟩ ⟨0, 0⟩
      (ComponentFlow.new ⟨10, 10⟩)).1 = some 2 := by
  refine ⟨?_, ?_, ?_⟩
  · intro position id attrs capturing children cpp ps fl h
    simp only [outsideRect, computedRect] at h
    simp only [find_at_position]
    rw [if_pos h]
  · intro position id attrs capturing children cpp ps fl h
    simp only [outsideRect, computedRect] at h
    simp only [find_at_position]
    rw [if_neg h]
    rw [find_children_lastSome]
    rfl
  · norm_num [overlapTree, attrsAt, find_at_position, find_children,
      ComponentAttributes.compute_position, ComponentAttributes.compute_size,
      Coordinates.to_vector, Coordinate.to_float, ComponentFlow.new]

/-- Witness for C7: the point (20,20) lies outside `overlapTree`'s root and
the walk returns no hit visiting only the root; the point (6,6) lies inside
and the hit is the last matching child. -/
theorem find_at_position_last_match_wins_witness :
    (outsideRect ⟨20, 20⟩
      (computedRect (attrsAt 0 0 10 10) ⟨0, 0⟩ ⟨0, 0⟩ (ComponentFlow.new ⟨10, 10⟩)) ∧
    find_at_position ⟨20, 20⟩ overlapTree ⟨0, 0⟩ ⟨0, 0⟩ (ComponentFlow.new ⟨10, 10⟩) =
      (none, [0],
        ((attrsAt 0 0 10 10).compute_position ⟨0, 0⟩ (ComponentFlow.new ⟨10, 10⟩)).2)) ∧
    (¬ outsideRect ⟨6, 6⟩
      (computedRect (attrsAt 0 0 10 10) ⟨0, 0⟩ ⟨0, 0⟩ (ComponentFlow.new ⟨10, 10⟩)) ∧
    (find_at_position ⟨6, 6⟩ overlapTree ⟨0, 0⟩ ⟨0, 0⟩ (ComponentFlow.new ⟨10, 10⟩)).1 =
      lastSome
        (childHitList ⟨6, 6⟩
          [InputTree.node 1 (attrsAt 0 0 7 7) true [],
           InputTree.node 2 (attrsAt 5 5 4 4) true []]
          (computedRect (attrsAt 0 0 10 10) ⟨0, 0⟩ ⟨0, 0⟩ (ComponentFlow.new ⟨10, 10⟩)).1
          (computedRect (attrsAt 0 0 10 10) ⟨0, 0⟩ ⟨0, 0⟩ (ComponentFlow.new ⟨10, 10⟩)).2
          (ComponentFlow.new
            (computedRect (attrsAt 0 0 10 10) ⟨0, 0⟩ ⟨0, 0⟩ (ComponentFlow.new ⟨10, 10⟩)).2))
        (if false then some 0 else none)) := by
  have hout : outsideRect ⟨20, 20⟩
      (computedRect (attrsAt 0 0 10 10) ⟨0, 0⟩ ⟨0, 0⟩ (ComponentFlow.new ⟨10, 10⟩)) := by
    norm_num [outsideRect, computedRect, attrsAt, ComponentAttributes.compute_position,
      ComponentAttributes.compute_size, Coordinates.to_vector, Coordinate.to_float,
      ComponentFlow.new]
  have hin : ¬ outsideRect ⟨6, 6⟩
      (computedRect (attrsAt 0 0 10 10) ⟨0, 0⟩ ⟨0, 0⟩ (ComponentFlow.new ⟨10, 10⟩)) := by
    norm_num [outsideRect, computedRect, attrsAt, ComponentAttributes.compute_position,
      ComponentAttributes.compute_size, Coordinates.to_vector, Coordinate.to_float,
      ComponentFlow.new]
  exact ⟨⟨hout, find_at_position_last_match_wins.1 ⟨20, 20⟩ 0 (attrsAt 0 0 10 10) false
      [InputTree.node 1 (attrsAt 0 0 7 7) true [],
       InputTree.node 2 (attrsAt 5 5 4 4) true []] ⟨0, 0⟩ ⟨0, 0⟩
      (ComponentFlow.new ⟨10, 10⟩) hout⟩,
    ⟨hin, find_at_position_last_match_wins.2.1 ⟨6, 6⟩ 0 (attrsAt 0 0 10 10) false
      [InputTree.node 1 (attrsAt 0 0 7 7) true [],
       InputTree.node 2 (attrsAt 5 5 4 4) true []] ⟨0, 0⟩ ⟨0, 0⟩
      (ComponentFlow.new ⟨10, 10⟩) hin⟩⟩

/-- Claim C5 (amended): when the hit differs from the previously hovered
component, `handle_cursor_moved` fires `hover_start` on the new target
first and `hover_end` on the old target second, OR-ing each handler's
returned needs-redraw boolean into that component's dirty flag, and records
the new hover target. -/
theorem hover_fires_start_then_end :
    ∀ (input : InputState) (ui : InputUi) (position : Vec2) (n o : Nat),
      (find_at_position position ui.root ⟨0, 0⟩ ⟨0, 0⟩
        (ComponentFlow.new ui.target_size)).1 = some n →
      input.hovering_over = some o →
      n ≠ o →
      input.handle_cursor_moved position ui =
        (⟨some n⟩, fireHoverEnd (fireHoverStart ui n) o,
          [.hoverStart n, .hoverEnd o]) := by
  intro input ui position n o hfind hold hne
  have h1 : (o != n) = true := by
    simp [bne_iff_ne]
    exact Ne.symm hne
  have h2 : (n != o) = true := by
    simp [bne_iff_ne]
    exact hne
  simp only [InputState.handle_cursor_moved, hfind, hold]
  simp [h1, h2]

/-- Counterexample to claim C5: moving the cursor from sibling 1 to sibling
2 of `hoverUi` fires `hover_start` on the new target before `hover_end` on
the old one - the reverse of the claimed order. -/
theorem hover_fires_start_then_end_counterexample :
    ((InputState.mk (some 1)).handle_cursor_moved ⟨6, 6⟩ hoverUi).2.2 =
      [.hoverStart 2, .hoverEnd 1] ∧
    ((InputState.mk (some 1)).handle_cursor_moved ⟨6, 6⟩ hoverUi).2.2 ≠
      [.hoverEnd 1, .hoverStart 2] := by
  have hev : ((InputState.mk (some 1)).handle_cursor_moved ⟨6, 6⟩ hoverUi).2.2 =
      [.hoverStart 2, .hoverEnd 1] := by
    norm_num [InputState.handle_cursor_moved, hoverUi, hoverTree, attrsAt,
      find_at_position, find_children, ComponentAttributes.compute_position,
      ComponentAttributes.compute_size, Coordinates.to_vector, Coordinate.to_float,
      ComponentFlow.new]
  refine ⟨hev, ?_⟩
  rw [hev]
  decide

/-- Witness for the amended C5 in the `hoverUi` scenario. -/
theorem hover_fires_start_then_end_witness :
    ((find_at_position ⟨6, 6⟩ hoverUi.root ⟨0, 0⟩ ⟨0, 0⟩
        (ComponentFlow.new hoverUi.target_size)).1 = some 2) ∧
    (InputState.mk (some 1)).handle_cursor_moved ⟨6, 6⟩ hoverUi =
      (⟨some 2⟩, fireHoverEnd (fireHoverStart hoverUi 2) 1,
        [.hoverStart 2, .hoverEnd 1]) := by
  have hfind : (find_at_position ⟨6, 6⟩ hoverUi.root ⟨0, 0⟩ ⟨0, 0⟩
      (ComponentFlow.new hoverUi.target_size)).1 = some 2 := by
    norm_num [hoverUi, hoverTree, attrsAt, find_at_position, find_children,
      ComponentAttributes.compute_position, ComponentAttributes.compute_size,
      Coordinates.to_vector, Coordinate.to_float, ComponentFlow.new]
  exact ⟨hfind, hover_fires_start_then_end (InputState.mk (some 1)) hoverUi ⟨6, 6⟩ 2 1
    hfind rfl (by decide)⟩

end Markedly

